import Mathlib

/-!
Shallow embedding of the credential aggregation and bounded-concurrency
fan-out engine of `src/main.ts` (a Deno API-key usage dashboard).

* `fetchApiKeyData` embeds the upstream usage fetcher (src/main.ts:2986-3032).
* `getAggregatedData` embeds the snapshot assembly (src/main.ts:3034-3084).
* `RunnerStep` and `runnerInit` embed the `ConcurrentTaskRunner` class
  (src/main.ts:1852-1886) as a small-step transition system whose
  nondeterminism ranges over all completion-time orderings of the tasks.
* `promiseAllInit` embeds the unbounded `Promise.all` fan-out that
  `getAggregatedData` actually performs (src/main.ts:3041).
-/

/-- A stored credential record (`ApiKeyEntry` in the source, keyed in Deno KV
by `id`); the aggregation core reads the `id` and `key` fields. -/
structure ApiKeyEntry where
  id : String
  key : String
deriving DecidableEq

/-- The `usage.standard` object of a well-formed upstream payload.  The
numeric fields are integers (the upstream contract supplies a used amount
and a total allowance); `usedRatio` keeps its JSON optionality because the
source copies it verbatim whether or not the provider sent one. -/
structure StandardUsage where
  orgTotalTokensUsed : Int
  totalAllowance : Int
  usedRatio : Option ℚ
deriving DecidableEq

/-- The `usage` object of the payload: the billing period plus the optional
`standard` block (the source checks `apiData.usage && apiData.usage.standard`
and nothing further). -/
structure UsageInfo where
  startDate : Option Int
  endDate : Option Int
  standard : Option StandardUsage
deriving DecidableEq

/-- A parsed JSON body; the `usage` member may be absent. -/
structure Payload where
  usage : Option UsageInfo
deriving DecidableEq

/-- What the upstream provider does with one request — the only free
nondeterminism of a fetch: the network fails (`fetch` rejects), the
response carries a non-ok status, the body fails to parse
(`response.json()` throws), or a parsed payload comes back. -/
inductive UpstreamResponse where
  | transportFail
  | httpError (status : Nat) (body : String)
  | okBadJson
  | okPayload (p : Payload)
deriving DecidableEq

/-- The union `fetchApiKeyData` returns: an object carrying an `error`
field, or the normalised usage record.  The date fields carry the raw
timestamps; the source formats them to strings, which no claim touches. -/
inductive FetchResult where
  | err (id maskedKey errorMsg : String)
  | ok (id maskedKey : String) (startDate endDate : Option Int)
      (orgTotalTokensUsed totalAllowance : Int) (usedRatio : Option ℚ)
deriving DecidableEq

/-- Whether the returned object carries an `error` field
(the `r.error` truthiness test of the source). -/
def FetchResult.hasError : FetchResult → Bool
  | .err _ _ _ => true
  | .ok _ _ _ _ _ _ _ => false

/-- The `id` field, present on both variants. -/
def FetchResult.idField : FetchResult → String
  | .err i _ _ => i
  | .ok i _ _ _ _ _ _ => i

/-- The `key` field, present on both variants (always a masked form). -/
def FetchResult.maskedKeyField : FetchResult → String
  | .err _ m _ => m
  | .ok _ m _ _ _ _ _ => m

/-- `res.orgTotalTokensUsed || 0` (the field is absent on an error object,
so `|| 0` turns it into zero). -/
def FetchResult.usedVal : FetchResult → Int
  | .err _ _ _ => 0
  | .ok _ _ _ _ u _ _ => u

/-- `res.totalAllowance || 0`. -/
def FetchResult.allowanceVal : FetchResult → Int
  | .err _ _ _ => 0
  | .ok _ _ _ _ _ a _ => a

/-- The `usedRatio` field of the returned object (absent on errors). -/
def FetchResult.usedRatioVal : FetchResult → Option ℚ
  | .err _ _ _ => none
  | .ok _ _ _ _ _ _ r => r

/-- JavaScript `s.substring(0, n)`. -/
def jsTake (n : Nat) (s : String) : String := String.mk (s.data.take n)

/-- JavaScript `s.substring(s.length - 4)`; a negative start index clamps
to 0 in JavaScript, exactly as Nat subtraction does here. -/
def jsLast4 (s : String) : String := String.mk (s.data.drop (s.data.length - 4))

/-- The mask used on every error return path of `fetchApiKeyData`:
`key.substring(0, 4) + '...'` (src/main.ts:2998, 3003, 3030). -/
def maskErr (key : String) : String := jsTake 4 key ++ "..."

/-- The mask of the success path:
`key.substring(0, 4) + '...' + key.substring(key.length - 4)`
(src/main.ts:3018). -/
def maskOk (key : String) : String := jsTake 4 key ++ "..." ++ jsLast4 key

/-- One run of `fetchApiKeyData`: its return value, the console lines it
wrote, and how many upstream requests it initiated. -/
structure FetchOutput where
  result : FetchResult
  logs : List String
  calls : Nat
deriving DecidableEq

/-- `fetchApiKeyData(id, key)` (src/main.ts:2986-3032), run against an
upstream oracle mapping the presented bearer key to the provider's
behaviour.  The source issues the request unconditionally — there is no
empty-secret guard — and then branches exactly as the code does: a non-ok
status yields the `HTTP <status>` error object, a structurally invalid
payload yields `Invalid API response structure`, and any thrown failure
(network-level or JSON parse) is caught and yields `Failed to fetch`. -/
def fetchApiKeyData (oracle : String → UpstreamResponse) (id key : String) :
    FetchOutput :=
  match oracle key with
  | .transportFail =>
      { result := .err id (maskErr key) "Failed to fetch",
        logs := ["Failed to process key ID " ++ id ++ ":"], calls := 1 }
  | .httpError status body =>
      { result := .err id (maskErr key) ("HTTP " ++ toString status),
        logs := ["Error fetching data for key ID " ++ id ++ ": " ++
          toString status ++ " " ++ body],
        calls := 1 }
  | .okBadJson =>
      { result := .err id (maskErr key) "Failed to fetch",
        logs := ["Failed to process key ID " ++ id ++ ":"], calls := 1 }
  | .okPayload p =>
      match p.usage with
      | none =>
          { result := .err id (maskErr key) "Invalid API response structure",
            logs := [], calls := 1 }
      | some u =>
          match u.standard with
          | none =>
              { result := .err id (maskErr key) "Invalid API response structure",
                logs := [], calls := 1 }
          | some st =>
              { result := .ok id (maskOk key) u.startDate u.endDate
                  st.orgTotalTokensUsed st.totalAllowance st.usedRatio,
                logs := [], calls := 1 }

/-- The accumulator object of the source's `reduce` (src/main.ts:3049-3053). -/
structure Totals where
  total_orgTotalTokensUsed : Int
  total_totalAllowance : Int
  total_tokensRemaining : Int
deriving DecidableEq

/-- One `reduce` step (src/main.ts:3044-3048): add the used amount, the
allowance, and the per-item remainder clamped at zero
(`Math.max(res.totalAllowance - res.orgTotalTokensUsed, 0)`). -/
def totalsStep (acc : Totals) (res : FetchResult) : Totals :=
  { total_orgTotalTokensUsed := acc.total_orgTotalTokensUsed + res.usedVal,
    total_totalAllowance := acc.total_totalAllowance + res.allowanceVal,
    total_tokensRemaining :=
      acc.total_tokensRemaining + max (res.allowanceVal - res.usedVal) 0 }

/-- The aggregator: keep the results without an `error` field
(`results.filter(r => !r.error)`) and fold the totals over them
(src/main.ts:3042-3054). -/
def computeTotals (results : List FetchResult) : Totals :=
  (results.filter (fun r => !r.hasError)).foldl totalsStep ⟨0, 0, 0⟩

/-- The snapshot object returned by `getAggregatedData`; `update_time`
keeps the epoch-millis instant with the Beijing offset the source applies,
leaving the string formatting to the consumer. -/
structure Snapshot where
  update_time : Int
  total_count : Nat
  totals : Totals
  data : List FetchResult
deriving DecidableEq

/-- `"=".repeat(80)`. -/
def sep80 : String := String.mk (List.replicate 80 '=')

/-- `"-".repeat(80)`. -/
def dash80 : String := String.mk (List.replicate 80 '-')

/-- The message of the error thrown on an empty store (src/main.ts:3038). -/
def noKeysMsg : String := "No API keys found in storage. Please import keys first."

/-- One run of `getAggregatedData`: the returned snapshot or the thrown
error message, the console lines written, and the number of upstream
requests initiated. -/
structure AggRun where
  outcome : Except String Snapshot
  logs : List String
  upstreamCalls : Nat

/-- The keys-with-balance console block (src/main.ts:3060-3076): when some
valid result has a positive remaining balance, the block prints a banner
and then, for each such result, the **full stored key** found by id in the
store; otherwise it prints a single warning line. -/
def balanceLogs (store : List ApiKeyEntry) (keysWithBalance : List FetchResult) :
    List String :=
  if keysWithBalance.isEmpty then
    ["\n⚠️  没有剩余额度大于0的API Keys\n"]
  else
    ["\n" ++ sep80, "📋 剩余额度大于0的API Keys:", dash80] ++
      keysWithBalance.filterMap
        (fun item => (store.find? (fun e => e.id == item.idField)).map
          (fun e => e.key)) ++
      [sep80 ++ "\n"]

/-- `getAggregatedData()` (src/main.ts:3034-3084): throw when the store is
empty; otherwise fetch every credential — a plain `Promise.all` over
`keyEntries.map`, one `fetchApiKeyData` per stored key — fold the totals
over the results without an `error` field, print the keys-with-balance
block, and return the snapshot built from **all** results. -/
def getAggregatedData (oracle : String → UpstreamResponse) (now : Int)
    (store : List ApiKeyEntry) : AggRun :=
  if store.length = 0 then
    { outcome := Except.error noKeysMsg, logs := [], upstreamCalls := 0 }
  else
    let outs := store.map (fun e => fetchApiKeyData oracle e.id e.key)
    let results := outs.map (fun o => o.result)
    let validResults := results.filter (fun r => !r.hasError)
    let keysWithBalance :=
      validResults.filter (fun r => r.allowanceVal - r.usedVal > 0)
    { outcome := Except.ok
        { update_time := now + 8 * 60 * 60 * 1000,
          total_count := store.length,
          totals := computeTotals results,
          data := results },
      logs := (outs.map (fun o => o.logs)).flatten ++
        balanceLogs store keysWithBalance,
      upstreamCalls := (outs.map (fun o => o.calls)).sum }

/-- What one submitted task does when awaited: resolve with a value or
reject with an error message. -/
inductive TaskOutcome (R : Type) where
  | ok (v : R)
  | throws (msg : String)
deriving DecidableEq

/-- A slot of the runner's `results` array: the task's value, or the
`{ error: message }` placeholder stored by the `catch`
(src/main.ts:1872-1874). -/
inductive RunResult (R : Type) where
  | value (v : R)
  | errObj (message : String)
deriving DecidableEq

/-- `results[currentIndex] = await task()` under the `try/catch`. -/
def settle {R : Type} : TaskOutcome R → RunResult R
  | .ok v => .value v
  | .throws m => .errObj m

/-- The runner's state during one `run(tasks)` call: the shared claim
cursor (`index`), the indices currently being awaited by a worker, and the
`results` array (a slot is `none` until written). -/
structure RunnerState (R : Type) where
  cursor : Nat
  active : List Nat
  results : List (Option (RunResult R))
deriving DecidableEq

/-- The state after the synchronous spawn loop (src/main.ts:1880-1882):
`min(concurrency, tasks.length)` workers have each claimed one index. -/
def runnerInit (R : Type) (K M : Nat) : RunnerState R :=
  { cursor := min K M,
    active := List.range (min K M),
    results := List.replicate M none }

/-- One scheduler event: some awaited task `τ` completes; its worker stores
the settled result at index `τ` and — the `finally { await executeNext() }`
— claims the next index when the cursor has not exhausted the list. -/
inductive RunnerStep {R : Type} (tasks : Nat → TaskOutcome R) (M : Nat) :
    RunnerState R → RunnerState R → Prop where
  | finish (s : RunnerState R) (τ : Nat) (hτ : τ ∈ s.active) :
      RunnerStep tasks M s
        { cursor := if s.cursor < M then s.cursor + 1 else s.cursor,
          active := s.active.erase τ ++ (if s.cursor < M then [s.cursor] else []),
          results := s.results.set τ (some (settle (tasks τ))) }

/-- The states an interleaving can reach during `run(tasks)` with
concurrency `K` over `M` tasks. -/
def RunnerReachable {R : Type} (tasks : Nat → TaskOutcome R) (K M : Nat)
    (s : RunnerState R) : Prop :=
  Relation.ReflTransGen (RunnerStep tasks M) (runnerInit R K M) s

/-- The inductive invariant of the runner's transition system. -/
structure RunnerInv {R : Type} (tasks : Nat → TaskOutcome R) (K M : Nat)
    (s : RunnerState R) : Prop where
  len : s.results.length = M
  cursor_le : s.cursor ≤ M
  nodup : s.active.Nodup
  active_lt : ∀ τ ∈ s.active, τ < s.cursor
  done_eq : ∀ i < s.cursor, i ∉ s.active →
    s.results[i]? = some (some (settle (tasks i)))
  pending : ∀ i < M, (s.cursor ≤ i ∨ i ∈ s.active) → s.results[i]? = some none
  drained : 1 ≤ K → s.active = [] → M ≤ s.cursor
  bound : s.active.length ≤ min K M

/-- The in-flight set of a `Promise.all` over `M` already-started promises:
calling the `M` async functions in `keyEntries.map(...)` starts all of
them, each running to its first await — the network request — before
`Promise.all` is awaited, so at the initial instant every index is
active. -/
structure FanoutState where
  active : List Nat
deriving DecidableEq

/-- The initial instant of a `Promise.all` fan-out over `M` tasks. -/
def promiseAllInit (M : Nat) : FanoutState := { active := List.range M }

/-- One settlement event of the fan-out: an in-flight request completes. -/
inductive FanoutStep : FanoutState → FanoutState → Prop where
  | finish (s : FanoutState) (τ : Nat) (hτ : τ ∈ s.active) :
      FanoutStep s { active := s.active.erase τ }

/-- The initial instant of the upstream fan-out `getAggregatedData`
performs (src/main.ts:3041): one `fetchApiKeyData` per stored key joined
with `Promise.all` — the `ConcurrentTaskRunner` is not used there. -/
def aggFanoutInit (store : List ApiKeyEntry) : FanoutState :=
  promiseAllInit store.length

/-- The instants during the upstream fan-out of one `getAggregatedData`
call over the given store. -/
def AggFanoutReachable (store : List ApiKeyEntry) (s : FanoutState) : Prop :=
  Relation.ReflTransGen FanoutStep (aggFanoutInit store) s

/-- An upstream that rejects every presented key with status 401. -/
def oracle401 : String → UpstreamResponse :=
  fun _ => UpstreamResponse.httpError 401 "Unauthorized"

/-- An upstream that answers every request with status 500. -/
def oracle500 : String → UpstreamResponse :=
  fun _ => UpstreamResponse.httpError 500 "oops"

/-- A well-formed payload whose `standard` block has a zero allowance, five
used tokens, and no provider-supplied `usedRatio`. -/
def payloadNoRatio : Payload :=
  { usage := some
      { startDate := none, endDate := none,
        standard := some
          { orgTotalTokensUsed := 5, totalAllowance := 0, usedRatio := none } } }

/-- An upstream that always returns `payloadNoRatio`. -/
def oracleNoRatio : String → UpstreamResponse :=
  fun _ => UpstreamResponse.okPayload payloadNoRatio

/-- A healthy payload: allowance 100, used 10, ratio 1/10. -/
def payloadBal : Payload :=
  { usage := some
      { startDate := some 0, endDate := some 0,
        standard := some
          { orgTotalTokensUsed := 10, totalAllowance := 100,
            usedRatio := some (1 / 10) } } }

/-- An upstream that always returns the healthy `payloadBal`. -/
def oracleBal : String → UpstreamResponse :=
  fun _ => UpstreamResponse.okPayload payloadBal

/-- An upstream that succeeds only for the bearer key `"ka"`. -/
def oracleMix : String → UpstreamResponse :=
  fun k => if k = "ka" then UpstreamResponse.okPayload payloadBal
    else UpstreamResponse.httpError 500 "oops"

/-- A store of nine credentials — one more than the runner's ceiling of 8. -/
def store9 : List ApiKeyEntry :=
  (List.range 9).map (fun i => { id := "id" ++ toString i, key := "key" ++ toString i })

/-- A one-credential store whose secret should never be logged in full. -/
def storeW : List ApiKeyEntry := [{ id := "id-1", key := "sk-live-full-key-0001" }]

/-- A two-credential store whose second key fails under `oracleMix`. -/
def storeMix : List ApiKeyEntry := [{ id := "a", key := "ka" }, { id := "b", key := "kb" }]

/-- An `Ok` usage result with the given allowance and used amount. -/
def exOk (allowance used : Int) : FetchResult :=
  FetchResult.ok "id" "mask" none none used allowance none

/-- Two tasks that resolve with ten times their index. -/
def wTasks : Nat → TaskOutcome Nat := fun i => TaskOutcome.ok (10 * i)

/-- The state after the first task of `wTasks` completes under
concurrency 1: the worker has stored slot 0 and claimed index 1. -/
def wS1 : RunnerState Nat :=
  { cursor := 2, active := [1], results := [some (RunResult.value 0), none] }

/-- The terminal state of the `wTasks` run under concurrency 1. -/
def wS2 : RunnerState Nat :=
  { cursor := 2, active := [],
    results := [some (RunResult.value 0), some (RunResult.value 10)] }

/-- Two tasks: index 0 rejects with message `boom`, index 1 resolves to 7. -/
def vTasks : Nat → TaskOutcome Nat :=
  fun i => if i = 0 then TaskOutcome.throws "boom" else TaskOutcome.ok 7

/-- The state after the throwing task 0 completes under concurrency 2:
slot 0 holds the error placeholder, task 1 is still awaited. -/
def vS1 : RunnerState Nat :=
  { cursor := 2, active := [1], results := [some (RunResult.errObj "boom"), none] }

/-- The terminal state of the `vTasks` run under concurrency 2. -/
def vS2 : RunnerState Nat :=
  { cursor := 2, active := [],
    results := [some (RunResult.errObj "boom"), some (RunResult.value 7)] }

theorem runnerInv_init {R : Type} (tasks : Nat → TaskOutcome R) (K M : Nat) :
    RunnerInv tasks K M (runnerInit R K M) := by
  refine ⟨?_, ?_, ?_, ?_, ?_, ?_, ?_, ?_⟩
  · exact List.length_replicate M none
  · exact min_le_right K M
  · exact List.nodup_range _
  · exact fun τ hτ => List.mem_range.mp hτ
  · exact fun i hi hni => absurd (List.mem_range.mpr hi) hni
  · intro i hi _
    show (List.replicate M (none : Option (RunResult R)))[i]? = some none
    simp [List.getElem?_replicate, hi]
  · intro hK hempty
    have hmin : min K M = 0 := by
      simpa [runnerInit, List.range_eq_nil] using hempty
    omega
  · show (List.range (min K M)).length ≤ min K M
    simp

theorem runnerInv_step {R : Type} {tasks : Nat → TaskOutcome R} {K M : Nat}
    {s t : RunnerState R} (inv : RunnerInv tasks K M s)
    (hst : RunnerStep tasks M s t) : RunnerInv tasks K M t := by
  cases hst with
  | finish τ hτ =>
    have hτcur : τ < s.cursor := inv.active_lt τ hτ
    have hτM : τ < M := lt_of_lt_of_le hτcur inv.cursor_le
    have hτlen : τ < s.results.length := by rw [inv.len]; exact hτM
    have hcur := inv.cursor_le
    refine ⟨?_, ?_, ?_, ?_, ?_, ?_, ?_, ?_⟩
    · dsimp only
      rw [List.length_set]
      exact inv.len
    · dsimp only
      split <;> omega
    · dsimp only
      have h1 : (s.active.erase τ).Nodup := inv.nodup.erase τ
      by_cases h : s.cursor < M
      · rw [if_pos h]
        refine List.nodup_append.mpr ⟨h1, List.nodup_singleton _, ?_⟩
        intro a ha hb
        have ha' : a ∈ s.active := List.mem_of_mem_erase ha
        have halt : a < s.cursor := inv.active_lt a ha'
        have hae : a = s.cursor := by simpa using hb
        omega
      · rw [if_neg h, List.append_nil]
        exact h1
    · dsimp only
      intro x hx
      rcases List.mem_append.mp hx with hx | hx
      · have hx' : x ∈ s.active := List.mem_of_mem_erase hx
        have := inv.active_lt x hx'
        split <;> omega
      · by_cases h : s.cursor < M
        · rw [if_pos h] at hx
          have : x = s.cursor := by simpa using hx
          rw [if_pos h]
          omega
        · rw [if_neg h] at hx
          simp at hx
    · dsimp only
      intro i hi hni
      by_cases hiτ : i = τ
      · subst hiτ
        rw [List.getElem?_set_self hτlen]
      · rw [List.getElem?_set_ne (Ne.symm hiτ)]
        have hiact : i ∉ s.active := by
          intro hmem
          have hie : i ∈ s.active.erase τ :=
            (inv.nodup.mem_erase_iff).mpr ⟨hiτ, hmem⟩
          exact hni (List.mem_append_left _ hie)
        by_cases hic : i < s.cursor
        · exact inv.done_eq i hic hiact
        · by_cases h : s.cursor < M
          · rw [if_pos h] at hi
            have hieq : i = s.cursor := by omega
            subst hieq
            exact absurd (List.mem_append_right _ (by simp [h])) hni
          · rw [if_neg h] at hi
            omega
    · dsimp only
      intro i hiM hyp
      have hiτ : i ≠ τ := by
        rintro rfl
        rcases hyp with hc | hm
        · by_cases h : s.cursor < M
          · rw [if_pos h] at hc
            omega
          · rw [if_neg h] at hc
            omega
        · rcases List.mem_append.mp hm with hm | hm
          · exact ((inv.nodup.mem_erase_iff).mp hm).1 rfl
          · by_cases h : s.cursor < M
            · rw [if_pos h] at hm
              have : i = s.cursor := by simpa using hm
              omega
            · rw [if_neg h] at hm
              simp at hm
      rw [List.getElem?_set_ne (Ne.symm hiτ)]
      apply inv.pending i hiM
      rcases hyp with hc | hm
      · left
        by_cases h : s.cursor < M
        · rw [if_pos h] at hc; omega
        · rw [if_neg h] at hc; omega
      · rcases List.mem_append.mp hm with hm | hm
        · right; exact List.mem_of_mem_erase hm
        · left
          by_cases h : s.cursor < M
          · rw [if_pos h] at hm
            have : i = s.cursor := by simpa using hm
            omega
          · rw [if_neg h] at hm
            simp at hm
    · dsimp only
      intro hK hempty
      have h2 := (List.append_eq_nil.mp hempty).2
      by_cases h : s.cursor < M
      · rw [if_pos h] at h2
        simp at h2
      · rw [if_neg h]
        omega
    · dsimp only
      have hlen : (s.active.erase τ).length = s.active.length - 1 := by
        rw [List.length_erase]
        simp [hτ]
      have hpos : 0 < s.active.length := List.length_pos.mpr (List.ne_nil_of_mem hτ)
      have hb := inv.bound
      rw [List.length_append, hlen]
      by_cases h : s.cursor < M
      · rw [if_pos h]
        simp only [List.length_singleton]
        omega
      · rw [if_neg h]
        simp only [List.length_nil]
        omega

theorem runnerInv_reachable {R : Type} {tasks : Nat → TaskOutcome R} {K M : Nat}
    {s : RunnerState R} (h : RunnerReachable tasks K M s) :
    RunnerInv tasks K M s := by
  induction h with
  | refl => exact runnerInv_init tasks K M
  | tail _ hstep ih => exact runnerInv_step ih hstep

/-- In a terminal state (no worker still awaiting a task) every slot of the
`results` array holds the settled result of the task with that index. -/
theorem runner_terminal_results {R : Type} {tasks : Nat → TaskOutcome R}
    {K M : Nat} {s : RunnerState R} (hK : 1 ≤ K)
    (h : RunnerReachable tasks K M s) (hterm : s.active = []) :
    s.results = (List.range M).map (fun i => some (settle (tasks i))) := by
  have inv := runnerInv_reachable h
  have hcurM : s.cursor = M := le_antisymm inv.cursor_le (inv.drained hK hterm)
  apply List.ext_getElem?
  intro i
  by_cases hi : i < M
  · rw [inv.done_eq i (hcurM ▸ hi) (by simp [hterm])]
    rw [List.getElem?_map, List.getElem?_range hi]
    rfl
  · rw [List.getElem?_eq_none (by rw [inv.len]; omega)]
    rw [List.getElem?_eq_none (by rw [List.length_map, List.length_range]; omega)]

/-- Folding `totalsStep` is summing the three mapped columns. -/
theorem foldl_totalsStep (l : List FetchResult) (acc : Totals) :
    l.foldl totalsStep acc =
      { total_orgTotalTokensUsed :=
          acc.total_orgTotalTokensUsed + (l.map (fun r => r.usedVal)).sum,
        total_totalAllowance :=
          acc.total_totalAllowance + (l.map (fun r => r.allowanceVal)).sum,
        total_tokensRemaining :=
          acc.total_tokensRemaining +
            (l.map (fun r => max (r.allowanceVal - r.usedVal) 0)).sum } := by
  induction l generalizing acc with
  | nil => simp
  | cons r t ih =>
    rw [List.foldl_cons, ih]
    simp only [totalsStep, List.map_cons, List.sum_cons, Totals.mk.injEq]
    refine ⟨by ring, by ring, by ring⟩

/-- The fetcher copies the presented `id` into its result on every path. -/
theorem fetchApiKeyData_idField (oracle : String → UpstreamResponse)
    (id key : String) : (fetchApiKeyData oracle id key).result.idField = id := by
  unfold fetchApiKeyData
  cases oracle key with
  | transportFail => rfl
  | httpError s b => rfl
  | okBadJson => rfl
  | okPayload p =>
    obtain ⟨u⟩ := p
    cases u with
    | none => rfl
    | some ui =>
      obtain ⟨sd, ed, st⟩ := ui
      cases st with
      | none => rfl
      | some stv => rfl

/-- When the stored ids are pairwise distinct, `find` by an entry's id
returns that entry. -/
theorem find_entry_by_id (store : List ApiKeyEntry) (e : ApiKeyEntry)
    (hids : (store.map (fun x => x.id)).Nodup) (he : e ∈ store) :
    store.find? (fun x => x.id == e.id) = some e := by
  induction store with
  | nil => cases he
  | cons a t ih =>
    rw [List.map_cons, List.nodup_cons] at hids
    rcases List.mem_cons.mp he with rfl | ht
    · rw [List.find?_cons_of_pos _ (by simp)]
    · have hne : (a.id == e.id) = false := by
        rw [beq_eq_false_iff_ne]
        intro hEq
        exact hids.1 (hEq ▸ List.mem_map_of_mem (fun x => x.id) ht)
      rw [List.find?_cons_of_neg _ (by simp [hne])]
      exact ih hids.2 ht

/-- C1: the snapshot assembly fails with the no-credentials error exactly
when the store lists zero credentials, and then makes no upstream call;
for every non-empty store it never throws — the outcome is a snapshot
whose per-credential list is exactly the per-credential fetch results, so
every per-credential failure is captured there as its error entry. -/
theorem getAggregatedData_noCredentials_iff_and_captures
    (oracle : String → UpstreamResponse) (now : Int) (store : List ApiKeyEntry) :
    ((getAggregatedData oracle now store).outcome = Except.error noKeysMsg ↔
        store = []) ∧
      (store = [] → (getAggregatedData oracle now store).upstreamCalls = 0) ∧
      (store ≠ [] →
        (getAggregatedData oracle now store).outcome.map (fun snap => snap.data) =
          Except.ok (store.map (fun e => (fetchApiKeyData oracle e.id e.key).result))) := by
  by_cases h : store = []
  · subst h
    exact ⟨by simp [getAggregatedData], fun _ => by simp [getAggregatedData],
      fun hne => absurd rfl hne⟩
  · have hlen : ¬ store.length = 0 := by simpa [List.length_eq_zero] using h
    refine ⟨⟨fun hout => ?_, fun he => absurd he h⟩, fun he => absurd he h, fun _ => ?_⟩
    · exfalso
      simp [getAggregatedData, hlen] at hout
    · simp [getAggregatedData, hlen, Except.map, List.map_map]

/-- C1 witness: on the empty store no upstream call is made; on a concrete
one-credential store whose fetch fails with HTTP 401 the error entry still
lands in the snapshot's data list instead of being thrown. -/
theorem getAggregatedData_noCredentials_iff_and_captures_witness :
    (getAggregatedData oracle401 0 []).upstreamCalls = 0 ∧
      (getAggregatedData oracle401 0 storeW).outcome.map (fun snap => snap.data) =
        Except.ok (storeW.map (fun e => (fetchApiKeyData oracle401 e.id e.key).result)) :=
  ⟨(getAggregatedData_noCredentials_iff_and_captures oracle401 0 []).2.1 rfl,
    (getAggregatedData_noCredentials_iff_and_captures oracle401 0 storeW).2.2
      (by decide)⟩

/-- C4: the aggregator totals are, over the results without an error field
only, the sum of used, the sum of allowance, and the sum of the per-item
remainder clamped at zero before summing; on the allowance/used pairs
(100,50), (100,150), (50,50) this gives totals 250, 250 and 50, while the
over-used entry itself still carries a remaining of -50. -/
theorem aggregator_clamped_totals :
    (∀ results : List FetchResult,
        computeTotals results =
          { total_orgTotalTokensUsed :=
              ((results.filter (fun r => !r.hasError)).map (fun r => r.usedVal)).sum,
            total_totalAllowance :=
              ((results.filter (fun r => !r.hasError)).map
                (fun r => r.allowanceVal)).sum,
            total_tokensRemaining :=
              ((results.filter (fun r => !r.hasError)).map
                (fun r => max (r.allowanceVal - r.usedVal) 0)).sum }) ∧
      computeTotals [exOk 100 50, exOk 100 150, exOk 50 50] =
        { total_orgTotalTokensUsed := 250, total_totalAllowance := 250,
          total_tokensRemaining := 50 } ∧
      (exOk 100 150).allowanceVal - (exOk 100 150).usedVal = -50 := by
  refine ⟨fun results => ?_, by decide, by decide⟩
  unfold computeTotals
  rw [foldl_totalsStep]
  simp

/-- C6 amended: the fetcher has no empty-secret guard — every credential,
the empty secret included, triggers exactly one upstream request, and the
outcome is dictated by the upstream response alone. -/
theorem fetch_always_calls_upstream (oracle : String → UpstreamResponse)
    (id key : String) : (fetchApiKeyData oracle id key).calls = 1 := by
  unfold fetchApiKeyData
  cases oracle key with
  | transportFail => rfl
  | httpError s b => rfl
  | okBadJson => rfl
  | okPayload p =>
    obtain ⟨u⟩ := p
    cases u with
    | none => rfl
    | some ui =>
      obtain ⟨sd, ed, st⟩ := ui
      cases st with
      | none => rfl
      | some stv => rfl

/-- C6 counterexample: a credential with an empty secret is not rejected
locally — one upstream request is still made and the result is the
upstream's HTTP 401 error object, not an immediate invalid-credential
error with zero network calls. -/
theorem empty_secret_sent_upstream :
    (fetchApiKeyData oracle401 "key-1" "").calls = 1 ∧
      (fetchApiKeyData oracle401 "key-1" "").calls ≠ 0 ∧
      (fetchApiKeyData oracle401 "key-1" "").result =
        FetchResult.err "key-1" "..." "HTTP 401" := by
  refine ⟨rfl, by decide, by decide⟩

/-- C7 amended: on a structurally valid payload the fetcher copies the
provider fields verbatim — `usedRatio` is exactly the provider-supplied
value (present or absent); no local used/allowance derivation or
zero-allowance guard exists, and no division is performed at all. -/
theorem fetch_ratio_passthrough (oracle : String → UpstreamResponse)
    (id key : String) (p : Payload) (u : UsageInfo) (st : StandardUsage)
    (hp : oracle key = UpstreamResponse.okPayload p)
    (hu : p.usage = some u) (hst : u.standard = some st) :
    (fetchApiKeyData oracle id key).result =
      FetchResult.ok id (maskOk key) u.startDate u.endDate
        st.orgTotalTokensUsed st.totalAllowance st.usedRatio := by
  unfold fetchApiKeyData
  rw [hp]
  simp [hu, hst]

/-- C7 witness: a healthy payload's fields, its ratio 1/10 included, are
copied verbatim into the Ok result. -/
theorem fetch_ratio_passthrough_witness :
    (fetchApiKeyData oracleBal "id-1" "sk-live-full-key-0001").result =
      FetchResult.ok "id-1" (maskOk "sk-live-full-key-0001") (some 0) (some 0)
        10 100 (some (1 / 10)) :=
  fetch_ratio_passthrough oracleBal "id-1" "sk-live-full-key-0001" payloadBal
    { startDate := some 0, endDate := some 0,
      standard := some
        { orgTotalTokensUsed := 10, totalAllowance := 100,
          usedRatio := some (1 / 10) } }
    { orgTotalTokensUsed := 10, totalAllowance := 100, usedRatio := some (1 / 10) }
    rfl rfl rfl

/-- C7 counterexample: a credential whose valid payload has allowance 0,
used 5 and no provider-supplied ratio yields an Ok result whose usedRatio
is absent — not the claimed derived-and-guarded value 0. -/
theorem zero_allowance_ratio_not_derived :
    (fetchApiKeyData oracleNoRatio "k1" "secret01").result.allowanceVal = 0 ∧
      (fetchApiKeyData oracleNoRatio "k1" "secret01").result.usedVal = 5 ∧
      (fetchApiKeyData oracleNoRatio "k1" "secret01").result.usedRatioVal = none ∧
      (none : Option ℚ) ≠ some 0 :=
  ⟨rfl, rfl, rfl, by decide⟩

/-- C8 amended: every result masks the key, but the two variants differ —
an Ok result carries first-4 + "..." + last-4 while every Err result
carries only first-4 + "..." with no last-4 suffix. -/
theorem fetch_mask_shapes (oracle : String → UpstreamResponse) (id key : String) :
    (fetchApiKeyData oracle id key).result.maskedKeyField =
      (if (fetchApiKeyData oracle id key).result.hasError then maskErr key
        else maskOk key) := by
  unfold fetchApiKeyData
  cases oracle key with
  | transportFail => rfl
  | httpError s b => rfl
  | okBadJson => rfl
  | okPayload p =>
    obtain ⟨u⟩ := p
    cases u with
    | none => rfl
    | some ui =>
      obtain ⟨sd, ed, st⟩ := ui
      cases st with
      | none => rfl
      | some stv => rfl

/-- C8 counterexample: on an HTTP 500 failure the masked key is the first
four characters plus "..." only — not the claimed first-4 + "..." + last-4
form. -/
theorem err_mask_lacks_last4 :
    (fetchApiKeyData oracle500 "k1" "sk-abcdef1234").result.maskedKeyField =
        "sk-a..." ∧
      (fetchApiKeyData oracle500 "k1" "sk-abcdef1234").result.maskedKeyField ≠
        maskOk "sk-abcdef1234" :=
  ⟨by decide, by decide⟩

/-- C10: for every non-empty store the snapshot's total_count equals the
number of stored credentials and equals the length of the per-credential
data list — error entries included, not just successes. -/
theorem snapshot_total_count_matches_store (oracle : String → UpstreamResponse)
    (now : Int) (store : List ApiKeyEntry) (h : store ≠ []) :
    (getAggregatedData oracle now store).outcome.map
        (fun snap => (snap.total_count, snap.data.length)) =
      Except.ok (store.length, store.length) := by
  have hlen : ¬ store.length = 0 := by simpa [List.length_eq_zero] using h
  simp [getAggregatedData, hlen, Except.map]

/-- C10 witness: a two-credential store where the second fetch fails still
reports total_count 2 and a data list of length 2. -/
theorem snapshot_total_count_matches_store_witness :
    ((getAggregatedData oracleMix 0 storeMix).outcome.map
        (fun snap => (snap.total_count, snap.data.length)) =
      Except.ok (2, 2)) ∧
      (fetchApiKeyData oracleMix "b" "kb").result.hasError = true := by
  constructor
  · have h := snapshot_total_count_matches_store oracleMix 0 storeMix (by decide)
    simpa [storeMix] using h
  · decide

/-- C2: for every list of M tasks and every concurrency K ≥ 1, whatever
completion-time ordering a run takes, a finished run's results array has
exactly M slots whose i-th slot holds the settled result of the i-th input
task; and for M = 0 the spawn state is already terminal with an empty
results array. -/
theorem run_length_and_order_preserving {R : Type} (tasks : Nat → TaskOutcome R)
    (K M : Nat) (s : RunnerState R) (hK : 1 ≤ K)
    (hreach : RunnerReachable tasks K M s) (hterm : s.active = []) :
    s.results = (List.range M).map (fun i => some (settle (tasks i))) ∧
      (runnerInit R K 0).results = [] ∧ (runnerInit R K 0).active = [] :=
  ⟨runner_terminal_results hK hreach hterm, by simp [runnerInit],
    by simp [runnerInit]⟩

/-- C2 witness: two tasks run to completion under concurrency 1; the
terminal results are the two task values in input order. -/
theorem run_length_and_order_preserving_witness :
    wS2.results = [some (RunResult.value 0), some (RunResult.value 10)] := by
  have h1 : RunnerStep wTasks 2 (runnerInit Nat 1 2) wS1 :=
    RunnerStep.finish _ 0 (by decide)
  have h2 : RunnerStep wTasks 2 wS1 wS2 :=
    RunnerStep.finish _ 1 (by decide)
  have hreach : RunnerReachable wTasks 1 2 wS2 :=
    Relation.ReflTransGen.tail
      (Relation.ReflTransGen.tail Relation.ReflTransGen.refl h1) h2
  have h := run_length_and_order_preserving wTasks 1 2 wS2 (by decide) hreach rfl
  rw [h.1]
  decide

/-- C5: if the task at index j rejects with a message, every finished run
stores the error placeholder at slot j while every other index still holds
its own task's value — one failing task never disturbs the rest. -/
theorem run_failure_isolation {R : Type} (tasks : Nat → TaskOutcome R)
    (K M : Nat) (s : RunnerState R) (j : Nat) (msg : String)
    (hK : 1 ≤ K) (hreach : RunnerReachable tasks K M s) (hterm : s.active = [])
    (hj : j < M) (hthrow : tasks j = TaskOutcome.throws msg) :
    s.results[j]? = some (some (RunResult.errObj msg)) ∧
      ∀ i, i < M → i ≠ j → ∀ v, tasks i = TaskOutcome.ok v →
        s.results[i]? = some (some (RunResult.value v)) := by
  have hres := runner_terminal_results hK hreach hterm
  constructor
  · rw [hres, List.getElem?_map, List.getElem?_range hj]
    simp [hthrow, settle]
  · intro i hi hij v hok
    rw [hres, List.getElem?_map, List.getElem?_range hi]
    simp [hok, settle]

/-- C5 witness: with task 0 rejecting with message boom and task 1
resolving to 7 under concurrency 2, the terminal results hold the error
placeholder at slot 0 and the value 7 at slot 1. -/
theorem run_failure_isolation_witness :
    vS2.results[0]? = some (some (RunResult.errObj "boom")) ∧
      vS2.results[1]? = some (some (RunResult.value 7)) := by
  have h1 : RunnerStep vTasks 2 (runnerInit Nat 2 2) vS1 :=
    RunnerStep.finish _ 0 (by decide)
  have h2 : RunnerStep vTasks 2 vS1 vS2 :=
    RunnerStep.finish _ 1 (by decide)
  have hreach : RunnerReachable vTasks 2 2 vS2 :=
    Relation.ReflTransGen.tail
      (Relation.ReflTransGen.tail Relation.ReflTransGen.refl h1) h2
  have h := run_failure_isolation vTasks 2 2 vS2 0 "boom" (by decide) hreach rfl
    (by decide) (by decide)
  exact ⟨h.1, h.2 1 (by decide) (by decide) 7 (by decide)⟩

/-- C3 amended: the ConcurrentTaskRunner itself never has more than K
tasks in flight at any reachable instant of a run; but the snapshot
aggregation does not use the runner — its Promise.all fan-out starts one
upstream call per stored credential simultaneously, so its in-flight count
at the initial instant equals the store size, unbounded by K. -/
theorem runner_ceiling_and_fanout_size :
    (∀ (R : Type) (tasks : Nat → TaskOutcome R) (K M : Nat) (s : RunnerState R),
        RunnerReachable tasks K M s → s.active.length ≤ K) ∧
      ∀ store : List ApiKeyEntry,
        (aggFanoutInit store).active.length = store.length := by
  constructor
  · intro R tasks K M s hreach
    exact le_trans (runnerInv_reachable hreach).bound (min_le_left K M)
  · intro store
    simp [aggFanoutInit, promiseAllInit]

/-- C3 witness: a freshly spawned run of 20 tasks under concurrency 8 has
at most 8 in flight, and the aggregation fan-out over the nine-credential
store has exactly nine upstream calls in flight. -/
theorem runner_ceiling_and_fanout_size_witness :
    (runnerInit Nat 8 20).active.length ≤ 8 ∧
      (aggFanoutInit store9).active.length = store9.length :=
  ⟨runner_ceiling_and_fanout_size.1 Nat wTasks 8 20 _ Relation.ReflTransGen.refl,
    runner_ceiling_and_fanout_size.2 store9⟩

/-- C3 counterexample: at the initial instant of the upstream fan-out of a
getAggregatedData call over a nine-credential store — an instant reachable
during that call — nine upstream requests are simultaneously active,
exceeding the concurrency ceiling of 8 that the claim asserts. -/
theorem agg_fanout_exceeds_ceiling :
    AggFanoutReachable store9 (aggFanoutInit store9) ∧
      8 < (aggFanoutInit store9).active.length :=
  ⟨Relation.ReflTransGen.refl, by decide⟩

/-- C9 amended: far from never appearing in the log, the full stored
secret of every credential whose fetch succeeded with a positive remaining
balance is written to the log output by the keys-with-balance block of
getAggregatedData. -/
theorem agg_logs_full_key_of_balance (oracle : String → UpstreamResponse)
    (now : Int) (store : List ApiKeyEntry) (e : ApiKeyEntry)
    (hids : (store.map (fun x => x.id)).Nodup) (he : e ∈ store)
    (hok : (fetchApiKeyData oracle e.id e.key).result.hasError = false)
    (hbal : (fetchApiKeyData oracle e.id e.key).result.allowanceVal -
        (fetchApiKeyData oracle e.id e.key).result.usedVal > 0) :
    e.key ∈ (getAggregatedData oracle now store).logs := by
  have hne : ¬ store.length = 0 := by
    simp only [List.length_eq_zero]
    exact List.ne_nil_of_mem he
  have h1 : fetchApiKeyData oracle e.id e.key ∈
      store.map (fun x => fetchApiKeyData oracle x.id x.key) :=
    List.mem_map_of_mem (fun x => fetchApiKeyData oracle x.id x.key) he
  have h2 : (fetchApiKeyData oracle e.id e.key).result ∈
      (store.map (fun x => fetchApiKeyData oracle x.id x.key)).map
        (fun o => o.result) :=
    List.mem_map_of_mem (fun o => o.result) h1
  have h3 : (fetchApiKeyData oracle e.id e.key).result ∈
      ((store.map (fun x => fetchApiKeyData oracle x.id x.key)).map
        (fun o => o.result)).filter (fun r => !r.hasError) :=
    List.mem_filter.mpr ⟨h2, by simp [hok]⟩
  have h4 : (fetchApiKeyData oracle e.id e.key).result ∈
      (((store.map (fun x => fetchApiKeyData oracle x.id x.key)).map
        (fun o => o.result)).filter (fun r => !r.hasError)).filter
          (fun r => r.allowanceVal - r.usedVal > 0) :=
    List.mem_filter.mpr ⟨h3, decide_eq_true hbal⟩
  have hkey : e.key ∈ balanceLogs store
      ((((store.map (fun x => fetchApiKeyData oracle x.id x.key)).map
        (fun o => o.result)).filter (fun r => !r.hasError)).filter
          (fun r => r.allowanceVal - r.usedVal > 0)) := by
    rw [balanceLogs,
      if_neg (fun hc => List.ne_nil_of_mem h4 (List.isEmpty_iff.mp hc))]
    apply List.mem_append_left
    apply List.mem_append_right
    apply List.mem_filterMap.mpr
    refine ⟨(fetchApiKeyData oracle e.id e.key).result, h4, ?_⟩
    rw [fetchApiKeyData_idField, find_entry_by_id store e hids he]
    rfl
  simp only [getAggregatedData, if_neg hne]
  exact List.mem_append_right _ hkey

/-- C9 witness: the one-credential store's healthy credential has positive
remaining balance, so its full stored key appears in the log output. -/
theorem agg_logs_full_key_of_balance_witness :
    ({ id := "id-1", key := "sk-live-full-key-0001" } : ApiKeyEntry).key ∈
      (getAggregatedData oracleBal 0 storeW).logs :=
  agg_logs_full_key_of_balance oracleBal 0 storeW
    { id := "id-1", key := "sk-live-full-key-0001" }
    (by decide) (by decide) (by decide) (by decide)

/-- C9 counterexample: the aggregation call over the concrete
one-credential store writes the credential's complete secret
sk-live-full-key-0001 to the log output — the secret is logged in full. -/
theorem full_secret_in_logs :
    "sk-live-full-key-0001" ∈ (getAggregatedData oracleBal 0 storeW).logs := by
  decide
